import Mathlib

/-!
Verification of the waSCC Redis event-streams capability provider
(`src/src/lib.rs`) against its natural-language specification.

The Rust source is shallowly embedded: pure functions become Lean
functions, the provider's shared `clients` map becomes an explicit
registry value threaded through the handlers, the external Redis client
is a record of functions supplied as a parameter, and a Rust `panic!`
(from `.unwrap()`) is modelled as `Option.none` in the return type.
-/

namespace WasccRedis

/-! ## UTF-8 decoding (embedding of `std::str::from_utf8`)

`val_to_string` in the source calls `::std::str::from_utf8(&vec).unwrap()`.
We embed the byte-level UTF-8 decoder exactly as Rust's validator accepts
byte sequences (RFC 3629: no overlong forms, no surrogates, max U+10FFFF).
Bytes are `Nat`s; a list entry ≥ 256 can never satisfy any lead/continuation
range below, so it is rejected, which is vacuously faithful for `u8` data. -/

/-- Decode one UTF-8 scalar from the front of a byte list, returning the
character and the remaining bytes, or `none` if the prefix is not a valid
UTF-8 sequence.  The acceptance ranges mirror Rust's
`core::str::validations::run_utf8_validation`. -/
def decodeOne : List Nat → Option (Char × List Nat)
  | [] => none
  | b0 :: t0 =>
    if b0 < 0x80 then
      some (Char.ofNat b0, t0)
    else if 0xC2 ≤ b0 ∧ b0 ≤ 0xDF then
      match t0 with
      | b1 :: t1 =>
        if 0x80 ≤ b1 ∧ b1 ≤ 0xBF then
          some (Char.ofNat ((b0 - 0xC0) * 0x40 + (b1 - 0x80)), t1)
        else none
      | [] => none
    else if 0xE0 ≤ b0 ∧ b0 ≤ 0xEF then
      match t0 with
      | b1 :: b2 :: t2 =>
        if (if b0 = 0xE0 then 0xA0 ≤ b1 ∧ b1 ≤ 0xBF
            else if b0 = 0xED then 0x80 ≤ b1 ∧ b1 ≤ 0x9F
            else 0x80 ≤ b1 ∧ b1 ≤ 0xBF) ∧ (0x80 ≤ b2 ∧ b2 ≤ 0xBF) then
          some (Char.ofNat ((b0 - 0xE0) * 0x1000 + (b1 - 0x80) * 0x40 + (b2 - 0x80)), t2)
        else none
      | _ => none
    else if 0xF0 ≤ b0 ∧ b0 ≤ 0xF4 then
      match t0 with
      | b1 :: b2 :: b3 :: t3 =>
        if (if b0 = 0xF0 then 0x90 ≤ b1 ∧ b1 ≤ 0xBF
            else if b0 = 0xF4 then 0x80 ≤ b1 ∧ b1 ≤ 0x8F
            else 0x80 ≤ b1 ∧ b1 ≤ 0xBF) ∧ (0x80 ≤ b2 ∧ b2 ≤ 0xBF) ∧ (0x80 ≤ b3 ∧ b3 ≤ 0xBF) then
          some (Char.ofNat ((b0 - 0xF0) * 0x40000 + (b1 - 0x80) * 0x1000 +
                            (b2 - 0x80) * 0x40 + (b3 - 0x80)), t3)
        else none
      | _ => none
    else none

/-- Fuel-indexed UTF-8 decoding loop; with fuel ≥ list length it decodes the
whole byte list or reports invalidity. -/
def utf8DecodeAux : Nat → List Nat → Option (List Char)
  | _, [] => some []
  | 0, _ :: _ => none
  | fuel + 1, b :: t =>
    match decodeOne (b :: t) with
    | none => none
    | some (c, rest) => (utf8DecodeAux fuel rest).map (fun cs => c :: cs)

/-- Full UTF-8 decoding of a byte list: `some` of the character sequence iff
the bytes are valid UTF-8 (as accepted by Rust's `str::from_utf8`). -/
def utf8Decode (l : List Nat) : Option (List Char) :=
  utf8DecodeAux l.length l

/-- UTF-8 encoding of one Unicode scalar value, as Rust encodes `char`. -/
def encodeChar (c : Nat) : List Nat :=
  if c < 0x80 then [c]
  else if c < 0x800 then [0xC0 + c / 0x40, 0x80 + c % 0x40]
  else if c < 0x10000 then
    [0xE0 + c / 0x1000, 0x80 + (c / 0x40) % 0x40, 0x80 + c % 0x40]
  else
    [0xF0 + c / 0x40000, 0x80 + (c / 0x1000) % 0x40, 0x80 + (c / 0x40) % 0x40, 0x80 + c % 0x40]

/-- UTF-8 encoding of a character sequence. -/
def utf8Encode : List Char → List Nat
  | [] => []
  | c :: cs => encodeChar c.toNat ++ utf8Encode cs

theorem decodeOne_length_lt :
    ∀ {l : List Nat} {c : Char} {rest : List Nat},
      decodeOne l = some (c, rest) → rest.length < l.length := by
  intro l c rest h
  match l with
  | [] => simp [decodeOne] at h
  | b0 :: t0 =>
    match t0 with
    | [] =>
      simp only [decodeOne] at h
      split_ifs at h <;> simp_all
    | [b1] =>
      simp only [decodeOne] at h
      split_ifs at h <;> simp_all
    | [b1, b2] =>
      simp only [decodeOne] at h
      split_ifs at h <;> simp_all <;> omega
    | b1 :: b2 :: b3 :: t3 =>
      simp only [decodeOne] at h
      split_ifs at h <;> simp_all <;> omega

theorem utf8DecodeAux_adequate :
    ∀ (fuel₁ fuel₂ : Nat) (l : List Nat), l.length ≤ fuel₁ → l.length ≤ fuel₂ →
      utf8DecodeAux fuel₁ l = utf8DecodeAux fuel₂ l := by
  intro fuel₁
  induction fuel₁ with
  | zero =>
    intro fuel₂ l h₁ _
    match l with
    | [] => cases fuel₂ <;> rfl
    | _ :: _ => simp at h₁
  | succ f ih =>
    intro fuel₂ l h₁ h₂
    match l with
    | [] => cases fuel₂ <;> rfl
    | b :: t =>
      match fuel₂ with
      | 0 => simp at h₂
      | g + 1 =>
        simp only [utf8DecodeAux]
        match hd : decodeOne (b :: t) with
        | none => rfl
        | some (c, rest) =>
          have hlt := decodeOne_length_lt hd
          simp only [List.length_cons] at hlt h₁ h₂
          have hf : rest.length ≤ f := by omega
          have hg : rest.length ≤ g := by omega
          simp only [hd]
          rw [ih g rest hf hg]

/-- Unfolding of `utf8Decode` by one decoded character. -/
theorem utf8Decode_cons {l : List Nat} {c : Char} {rest : List Nat}
    (h : decodeOne l = some (c, rest)) :
    utf8Decode l = (utf8Decode rest).map (fun cs => c :: cs) := by
  match l with
  | [] => simp [decodeOne] at h
  | b :: t =>
    have hlt := decodeOne_length_lt h
    unfold utf8Decode
    simp only [List.length_cons, utf8DecodeAux, h]
    rw [utf8DecodeAux_adequate t.length rest.length rest (by simp at hlt; omega) le_rfl]

theorem charOfNat_eq (c : Char) (n : Nat) (h : n = c.toNat) : Char.ofNat n = c := by
  rw [h, Char.ofNat_toNat]

theorem decodeOne_encodeChar (c : Char) (l : List Nat) :
    decodeOne (encodeChar c.toNat ++ l) = some (c, l) := by
  have hval := c.valid
  unfold UInt32.isValidChar Nat.isValidChar at hval
  have hval' : c.toNat < 0xd800 ∨ (0xdfff < c.toNat ∧ c.toNat < 0x110000) := hval
  rcases Nat.lt_or_ge c.toNat 0x80 with h1 | h1
  · simp only [encodeChar]
    rw [if_pos h1]
    simp only [List.singleton_append, decodeOne]
    rw [if_pos h1, Char.ofNat_toNat]
  · rcases Nat.lt_or_ge c.toNat 0x800 with h2 | h2
    · have h1' : ¬ c.toNat < 0x80 := by omega
      simp only [encodeChar]
      rw [if_neg h1', if_pos h2]
      simp only [List.cons_append, List.nil_append, decodeOne]
      split_ifs
      all_goals try (exfalso; omega)
      all_goals exact congrArg (fun ch => some (ch, l)) (charOfNat_eq c _ (by omega))
    · rcases Nat.lt_or_ge c.toNat 0x10000 with h3 | h3
      · have h1' : ¬ c.toNat < 0x80 := by omega
        have h2' : ¬ c.toNat < 0x800 := by omega
        simp only [encodeChar]
        rw [if_neg h1', if_neg h2', if_pos h3]
        simp only [List.cons_append, List.nil_append, decodeOne]
        split_ifs
        all_goals try (exfalso; omega)
        all_goals exact congrArg (fun ch => some (ch, l)) (charOfNat_eq c _ (by omega))
      · have h1' : ¬ c.toNat < 0x80 := by omega
        have h2' : ¬ c.toNat < 0x800 := by omega
        have h3' : ¬ c.toNat < 0x10000 := by omega
        simp only [encodeChar]
        rw [if_neg h1', if_neg h2', if_neg h3']
        simp only [List.cons_append, List.nil_append, decodeOne]
        split_ifs
        all_goals try (exfalso; omega)
        all_goals exact congrArg (fun ch => some (ch, l)) (charOfNat_eq c _ (by omega))

/-- Decoding inverts encoding: any character sequence round-trips through
UTF-8 bytes. -/
theorem utf8Decode_utf8Encode (cs : List Char) : utf8Decode (utf8Encode cs) = some cs := by
  induction cs with
  | nil => rfl
  | cons c cs ih =>
    rw [utf8Encode, utf8Decode_cons (decodeOne_encodeChar c (utf8Encode cs)), ih]
    rfl

/-! ## Redis values and the Value Codec (`val_to_string`) -/

/-- The `redis_streams::Value` enum: a value returned by Redis. -/
inductive RValue : Type
  | nil : RValue
  | int : Int → RValue
  | data : List Nat → RValue
  | bulk : List RValue → RValue
  | status : String → RValue
  | okay : RValue

/-- Embedding of `val_to_string` (src/src/lib.rs lines 189-195):

    fn val_to_string(val: &Value) -> String {
        if let Value::Data(vec) = val {
            ::std::str::from_utf8(&vec).unwrap().to_string()
        } else {
            "??".to_string()
        }
    }

The `.unwrap()` panics when the bytes are not valid UTF-8; the panic is
modelled as `none`. -/
def val_to_string : RValue → Option String
  | RValue.data vec => (utf8Decode vec).map String.mk
  | _ => some "??"

/-! ## Request/response data model (generated `wascc_codec` types, fields as
in the spec's §3 data model; `HashMap`s are modelled as key/value lists). -/

/-- An event to be written to / read from a stream. -/
structure Event where
  event_id : String
  stream : String
  values : List (String × String)

/-- Optional time range of a stream query. -/
structure TimeRange where
  min_time : String
  max_time : String

/-- A stream query: stream id, optional range, entry-count limit. -/
structure StreamQuery where
  stream_id : String
  range : Option TimeRange
  count : Int

/-- Result of a stream query. -/
structure StreamResults where
  events : List Event

/-- Response to a write: the store-assigned entry id. -/
structure WriteResponse where
  event_id : String

/-- Configuration delivered by the host for one module (caller). -/
structure CapabilityConfiguration where
  module : String
  values : List (String × String)

/-! ## Errors

The Rust code returns `Box<dyn Error>`: either a `RedisError` built from an
`ErrorKind` plus message, or a plain string error. -/

/-- The only `redis_streams::ErrorKind` the source constructs itself. -/
inductive RedisKind : Type
  | invalidClientConfig : RedisKind

/-- A `Box<dyn Error>` value as produced by this provider. -/
inductive RError : Type
  | redis : RedisKind → String → RError
  | str : String → RError

/-- The error `actor_con` returns when the caller has no registered client
(src/src/lib.rs lines 67-70). -/
def notConfiguredError : RError :=
  RError.redis RedisKind.invalidClientConfig
    "No client for this actor. Did the host configure it?"

/-! ## The store interface

`redis_streams` raw-entry types and the connection primitives the provider
invokes.  A connection is a record of the three primitives used, each a
function from a store state `σ` (the external Redis instance) to a result
and successor state. -/

/-- One raw stream entry (`redis_streams::StreamId`): a store-assigned id
plus a field → binary-value map. -/
structure StreamEntry where
  id : String
  map : List (String × RValue)

/-- The reply of `xrange`/`xrange_count` (`StreamRangeReply`). -/
structure StreamRangeReply where
  ids : List StreamEntry

/-- A live Redis connection: the three store primitives the provider calls.
`xadd stream "*" data` appends with auto-assigned id and returns the id. -/
structure Conn (σ : Type) where
  xadd : σ → String → String → List (String × String) → Except RError (String × σ)
  xrange : σ → String → String → String → Except RError (StreamRangeReply × σ)
  xrangeCount : σ → String → String → String → Int → Except RError (StreamRangeReply × σ)

/-- A `redis_streams::Client`: holds the address it was opened with and can
produce connections (via `Deps.getConnection`). -/
structure Client where
  url : String

/-! ## The connection registry (`clients: HashMap<String, Client>`) -/

/-- The provider's only local mutable state: the caller-id → client map. -/
abbrev Registry := List (String × Client)

/-- `HashMap::get` on the registry. -/
def regGet (r : Registry) (actor : String) : Option Client :=
  (r.find? (fun p => p.1 == actor)).map (fun p => p.2)

/-- `HashMap::insert` on the registry: binds `k` to `v`, replacing any prior
binding of `k` (unique-key map semantics). -/
def regInsert (r : Registry) (k : String) (v : Client) : Registry :=
  (k, v) :: r.filter (fun p => p.1 != k)

/-- Number of live bindings a key has in the registry. -/
def regCount (r : Registry) (k : String) : Nat :=
  (r.filter (fun p => p.1 == k)).length

/-! ## External collaborators supplied to the provider

The structured-serialization library (`prost` decode for each request type),
`Client::open`, and `Client::get_connection` are external to this repository
(spec §1 treats them as given); they are parameters of the embedding. -/

/-- External dependencies: payload decoders and the Redis client library. -/
structure Deps (σ : Type) where
  decodeConfig : List Nat → Option CapabilityConfiguration
  decodeEvent : List Nat → Option Event
  decodeQuery : List Nat → Option StreamQuery
  openClient : String → Except String Client
  getConnection : Client → Except RError (Conn σ)

/-! ## The provider's operations (src/src/lib.rs) -/

/-- The recognized configuration key (line 159): `const ENV_REDIS_URL`. -/
def ENV_REDIS_URL : String := "URL"

/-- Embedding of `initialize_client` (lines 161-176): resolve the URL from
the configuration (default `redis://0.0.0.0:6379/`), then `Client::open`. -/
def initialize_client (openClient : String → Except String Client)
    (config : CapabilityConfiguration) : Except String Client :=
  let redis_url :=
    match (config.values.find? (fun p => p.1 == ENV_REDIS_URL)).map (fun p => p.2) with
    | some v => v
    | none => "redis://0.0.0.0:6379/"
  match openClient redis_url with
  | Except.ok c => Except.ok c
  | Except.error e => Except.error ("Failed to connect to redis: " ++ e)

/-- A response payload, standing for the bytes the (assumed-correct)
external serializer would produce. -/
inductive Resp : Type
  | empty : Resp
  | write : WriteResponse → Resp
  | query : StreamResults → Resp

/-- Embedding of `configure` (lines 51-60): open a client for the
configuration and store it under `config.module`; on failure return the
error and leave the registry untouched. -/
def configure (openClient : String → Except String Client) (clients : Registry)
    (config : CapabilityConfiguration) : Except RError Resp × Registry :=
  match initialize_client openClient config with
  | Except.error e => (Except.error (RError.str e), clients)
  | Except.ok c => (Except.ok Resp.empty, regInsert clients config.module c)

/-- Embedding of `actor_con` (lines 62-72): look the caller up in the
registry and get a connection from its client, or fail with the
not-configured error. -/
def actor_con {σ : Type} (deps : Deps σ) (clients : Registry) (actor : String) :
    Except RError (Conn σ) :=
  match regGet clients actor with
  | some client => deps.getConnection client
  | none => Except.error notConfiguredError

/-- Embedding of `map_to_tuples` (lines 178-180): `HashMap::into_iter`
collected to a pair list — on the list model of the map it is the
identity on the entries. -/
def map_to_tuples (m : List (String × String)) : List (String × String) := m

/-- Embedding of `write_event` (lines 74-78): flatten the values, resolve a
connection, `xadd` to the event's stream with auto id `"*"`, and return the
assigned id as a `WriteResponse`. -/
def write_event {σ : Type} (deps : Deps σ) (clients : Registry) (store : σ)
    (actor : String) (event : Event) : Except RError (WriteResponse × σ) :=
  let data := map_to_tuples event.values
  match actor_con deps clients actor with
  | Except.error e => Except.error e
  | Except.ok conn =>
    match conn.xadd store event.stream "*" data with
    | Except.error e => Except.error e
    | Except.ok (res, store') => Except.ok (WriteResponse.mk res, store')

/-- Embedding of the per-entry value decoding in `query_stream`'s loop
(lines 108-112): each binary value through `val_to_string`; a panic in any
value aborts the whole call (`none`). -/
def decodeValues : List (String × RValue) → Option (List (String × String))
  | [] => some []
  | (k, v) :: rest =>
    match val_to_string v with
    | none => none
    | some s => (decodeValues rest).map (fun vs => (k, s) :: vs)

/-- Embedding of the assembly loop of `query_stream` (lines 105-118): one
`Event` per raw entry, in order, carrying the entry id, the query's stream
id and the decoded value map. -/
def collectEvents (sid : String) : List StreamEntry → Option (List Event)
  | [] => some []
  | e :: rest =>
    match decodeValues e.map with
    | none => none
    | some vs => (collectEvents sid rest).map (fun evs => Event.mk e.id sid vs :: evs)

/-- Shared tail of `query_stream`: turn the range-read reply into
`StreamResults` (or propagate the store error / the decode panic). -/
def finishQuery {σ : Type} (sid : String) (r : Except RError (StreamRangeReply × σ)) :
    Option (Except RError (StreamResults × σ)) :=
  match r with
  | Except.error e => some (Except.error e)
  | Except.ok (items, store') =>
    match collectEvents sid items.ids with
    | none => none
    | some evs => some (Except.ok (StreamResults.mk evs, store'))

/-- Embedding of `query_stream` (lines 80-121): branch on
(range present?, count > 0?) into the four range-read variants, then
assemble the reply.  A `val_to_string` panic is `none`. -/
def query_stream {σ : Type} (deps : Deps σ) (clients : Registry) (store : σ)
    (actor : String) (query : StreamQuery) :
    Option (Except RError (StreamResults × σ)) :=
  let sid := query.stream_id
  match query.range with
  | some time_range =>
    if query.count > 0 then
      match actor_con deps clients actor with
      | Except.error e => some (Except.error e)
      | Except.ok conn =>
        finishQuery sid
          (conn.xrangeCount store query.stream_id time_range.min_time time_range.max_time
            query.count)
    else
      match actor_con deps clients actor with
      | Except.error e => some (Except.error e)
      | Except.ok conn =>
        finishQuery sid
          (conn.xrange store query.stream_id time_range.min_time time_range.max_time)
  | none =>
    if query.count > 0 then
      match actor_con deps clients actor with
      | Except.error e => some (Except.error e)
      | Except.ok conn =>
        finishQuery sid (conn.xrangeCount store query.stream_id "-" "+" query.count)
    else
      match actor_con deps clients actor with
      | Except.error e => some (Except.error e)
      | Except.ok conn =>
        finishQuery sid (conn.xrange store query.stream_id "-" "+")

/-! ## The operation dispatcher (`handle_call`, lines 145-156)

Operation-name constants live in the external `wascc_codec` crate.
Modelled from the spec: the spec's operation table only requires three
distinct operation names; the string values are those of `wascc_codec`
(`core::OP_CONFIGURE`, `eventstreams::OP_WRITE_EVENT`,
`eventstreams::OP_QUERY_STREAM`). -/

def opConfigure : String := "OP_CONFIGURE"

def opWriteEvent : String := "WriteEvent"

def opQueryStream : String := "QueryStream"

/-- Embedding of `handle_call`:

    match op {
        OP_CONFIGURE if actor == "system" => self.configure(msg.to_vec().as_ref()),
        eventstreams::OP_WRITE_EVENT => self.write_event(actor, Event::decode(msg).unwrap()),
        eventstreams::OP_QUERY_STREAM => self.query_stream(actor, StreamQuery::decode(msg).unwrap()),
        _ => Err("bad dispatch".into()),
    }

The guard failing on `OP_CONFIGURE` falls through to the catch-all arm.
Each `.unwrap()` on a failed payload decode is a panic, modelled as `none`.
The result carries the response-or-error together with the registry and
store states after the call. -/
def handle_call {σ : Type} (deps : Deps σ) (clients : Registry) (store : σ)
    (actor op : String) (msg : List Nat) :
    Option (Except RError Resp × Registry × σ) :=
  if op = opConfigure ∧ actor = "system" then
    match deps.decodeConfig msg with
    | none => none
    | some config =>
      let p := configure deps.openClient clients config
      some (p.1, p.2, store)
  else if op = opWriteEvent then
    match deps.decodeEvent msg with
    | none => none
    | some event =>
      match write_event deps clients store actor event with
      | Except.ok (w, store') => some (Except.ok (Resp.write w), clients, store')
      | Except.error e => some (Except.error e, clients, store)
  else if op = opQueryStream then
    match deps.decodeQuery msg with
    | none => none
    | some query =>
      match query_stream deps clients store actor query with
      | none => none
      | some (Except.ok (res, store')) => some (Except.ok (Resp.query res), clients, store')
      | some (Except.error e) => some (Except.error e, clients, store)
  else
    some (Except.error (RError.str "bad dispatch"), clients, store)

/-! ## A concrete store

Modelled from the spec: the underlying store itself is out of scope of the
repository (§1, §6); only its primitives are described — append-with-auto-id
to a named stream, and range-read between two bounds, optionally limited to
N entries, with `"-"`/`"+"` denoting the full open range.  This concrete
instance realises exactly those primitives so that the handlers can be run
and the count-limit behaviour stated. -/

/-- Modelled from the spec: state of the external store — named streams of
entries plus a counter for store-assigned ids. -/
structure StoreState where
  streams : List (String × List StreamEntry)
  nextId : Nat

/-- Entries of one named stream (empty when the stream was never written). -/
def getStreamEntries (st : StoreState) (s : String) : List StreamEntry :=
  match (st.streams.find? (fun p => p.1 == s)).map (fun p => p.2) with
  | some es => es
  | none => []

/-- Replace the entry list of one named stream. -/
def setStreamEntries (st : StoreState) (s : String) (es : List StreamEntry) : StoreState :=
  StoreState.mk ((s, es) :: st.streams.filter (fun p => p.1 != s)) st.nextId

/-- Lexicographic comparison of character lists (entry-id ordering). -/
def charListLt : List Char → List Char → Bool
  | [], [] => false
  | [], _ :: _ => true
  | _ :: _, [] => false
  | a :: as, b :: bs =>
    a.toNat < b.toNat || (a.toNat = b.toNat && charListLt as bs)

/-- Modelled from the spec: an entry id lies within `[lo, hi]`, where the
bounds `"-"` and `"+"` are open (§6: bounds `"-"`/`"+"` denote full open
range). -/
def idInRange (lo hi : String) (e : StreamEntry) : Bool :=
  (lo == "-" || !(charListLt e.id.data lo.data)) &&
  (hi == "+" || !(charListLt hi.data e.id.data))

/-- Modelled from the spec: range-read of a stream between two bounds. -/
def specXRange (st : StoreState) (stream lo hi : String) : StreamRangeReply :=
  StreamRangeReply.mk ((getStreamEntries st stream).filter (idInRange lo hi))

/-- How a written field/value pair is stored: the value as binary data. -/
def storedPair (p : String × String) : String × RValue :=
  (p.1, RValue.data (utf8Encode p.2.data))

/-- Modelled from the spec: a connection to the concrete store.  `xadd`
appends with a fresh monotonically-increasing id; the range reads return
the in-range entries in store order, the counted variant capped at the
count. -/
def specConn : Conn StoreState :=
  Conn.mk
    (fun st stream _auto data =>
      let id := toString (st.nextId + 1)
      Except.ok (id,
        StoreState.mk
          (setStreamEntries st stream
            (getStreamEntries st stream ++ [StreamEntry.mk id (data.map storedPair)])).streams
          (st.nextId + 1)))
    (fun st stream lo hi => Except.ok (specXRange st stream lo hi, st))
    (fun st stream lo hi n =>
      Except.ok (StreamRangeReply.mk ((specXRange st stream lo hi).ids.take n.toNat), st))

/-- Dependencies instantiated with the concrete store; `Client::open`
always succeeds and connections come from `specConn`.  The payload
decoders are irrelevant for direct handler calls. -/
def specDeps : Deps StoreState :=
  Deps.mk (fun _ => none) (fun _ => none) (fun _ => none)
    (fun url => Except.ok (Client.mk url)) (fun _ => Except.ok specConn)

/-! ## Registry lemmas -/

theorem regGet_insert_self (r : Registry) (k : String) (v : Client) :
    regGet (regInsert r k v) k = some v := by
  simp [regGet, regInsert, List.find?_cons]

theorem find?_filter_ne (r : Registry) (k a : String) (h : ¬ a = k) :
    (r.filter (fun p => p.1 != k)).find? (fun p => p.1 == a) =
      r.find? (fun p => p.1 == a) := by
  have hka : ¬ k = a := fun hh => h hh.symm
  induction r with
  | nil => rfl
  | cons hd tl ih =>
    by_cases hk : hd.1 = k
    · have ha : ¬ hd.1 = a := by rw [hk]; exact hka
      simp [List.filter_cons, List.find?_cons, hk, ha, h, hka, ih]
    · by_cases ha : hd.1 = a
      · simp [List.filter_cons, List.find?_cons, hk, ha, h, hka]
      · simp [List.filter_cons, List.find?_cons, hk, ha, h, hka, ih]

theorem regGet_insert_ne (r : Registry) (k a : String) (v : Client) (h : ¬ a = k) :
    regGet (regInsert r k v) a = regGet r a := by
  have hka : ¬ k = a := fun hh => h hh.symm
  simp [regGet, regInsert, List.find?_cons, hka, find?_filter_ne r k a h]

theorem filter_filter_ne (r : Registry) (k a : String) (h : ¬ a = k) :
    (r.filter (fun p => p.1 != k)).filter (fun p => p.1 == a) =
      r.filter (fun p => p.1 == a) := by
  have hka : ¬ k = a := fun hh => h hh.symm
  induction r with
  | nil => rfl
  | cons hd tl ih =>
    by_cases hk : hd.1 = k
    · have ha : ¬ hd.1 = a := by rw [hk]; exact hka
      simp [List.filter_cons, hk, ha, h, hka, ih]
    · by_cases ha : hd.1 = a
      · simp [List.filter_cons, hk, ha, h, hka, ih]
      · simp [List.filter_cons, hk, ha, h, hka, ih]

theorem regCount_insert_self (r : Registry) (k : String) (v : Client) :
    regCount (regInsert r k v) k = 1 := by
  have hnil : (r.filter (fun p => p.1 != k)).filter (fun p => p.1 == k) = [] := by
    induction r with
    | nil => rfl
    | cons hd tl ih =>
      by_cases hk : hd.1 = k
      · simp [List.filter_cons, hk, ih]
      · simp [List.filter_cons, hk, ih]
  simp [regCount, regInsert, List.filter_cons, hnil]

theorem regCount_insert_ne (r : Registry) (k a : String) (v : Client) (h : ¬ a = k) :
    regCount (regInsert r k v) a = regCount r a := by
  have hka : ¬ k = a := fun hh => h hh.symm
  simp [regCount, regInsert, List.filter_cons, hka, filter_filter_ne r k a h]

/-! ## Characterisation of the query assembly loop -/

theorem decodeValues_spec :
    ∀ {m : List (String × RValue)} {vs : List (String × String)},
      decodeValues m = some vs →
      vs.length = m.length ∧
      ∀ j (hj : j < vs.length) (hj' : j < m.length),
        (vs.get ⟨j, hj⟩).1 = (m.get ⟨j, hj'⟩).1 ∧
        val_to_string (m.get ⟨j, hj'⟩).2 = some (vs.get ⟨j, hj⟩).2 := by
  intro m
  induction m with
  | nil =>
    intro vs h
    simp only [decodeValues, Option.some.injEq] at h
    subst h
    exact ⟨rfl, fun j hj => by simp at hj⟩
  | cons p rest ih =>
    intro vs h
    obtain ⟨k, v⟩ := p
    simp only [decodeValues] at h
    match hv : val_to_string v with
    | none => rw [hv] at h; exact absurd h (by simp)
    | some s =>
      rw [hv] at h
      match hr : decodeValues rest with
      | none => rw [hr] at h; exact absurd h (by simp)
      | some vs' =>
        rw [hr] at h
        simp only [Option.map_some', Option.some.injEq] at h
        subst h
        obtain ⟨hlen, hidx⟩ := ih hr
        refine ⟨by simp [hlen], ?_⟩
        intro j hj hj'
        match j with
        | 0 => exact ⟨rfl, hv⟩
        | j + 1 =>
          simp only [List.length_cons] at hj hj'
          exact hidx j (by omega) (by omega)

theorem collectEvents_spec (sid : String) :
    ∀ {es : List StreamEntry} {evs : List Event},
      collectEvents sid es = some evs →
      evs.length = es.length ∧
      ∀ i (hi : i < evs.length) (hi' : i < es.length),
        (evs.get ⟨i, hi⟩).event_id = (es.get ⟨i, hi'⟩).id ∧
        (evs.get ⟨i, hi⟩).stream = sid ∧
        decodeValues (es.get ⟨i, hi'⟩).map = some ((evs.get ⟨i, hi⟩).values) := by
  intro es
  induction es with
  | nil =>
    intro evs h
    simp only [collectEvents, Option.some.injEq] at h
    subst h
    exact ⟨rfl, fun i hi => by simp at hi⟩
  | cons e rest ih =>
    intro evs h
    simp only [collectEvents] at h
    match hv : decodeValues e.map with
    | none => rw [hv] at h; exact absurd h (by simp)
    | some vs =>
      rw [hv] at h
      match hr : collectEvents sid rest with
      | none => rw [hr] at h; exact absurd h (by simp)
      | some evs' =>
        rw [hr] at h
        simp only [Option.map_some', Option.some.injEq] at h
        subst h
        obtain ⟨hlen, hidx⟩ := ih hr
        refine ⟨by simp [hlen], ?_⟩
        intro i hi hi'
        match i with
        | 0 => exact ⟨rfl, rfl, hv⟩
        | i + 1 =>
          simp only [List.length_cons] at hi hi'
          exact hidx i (by omega) (by omega)

theorem collectEvents_length {sid : String} {es : List StreamEntry} {evs : List Event}
    (h : collectEvents sid es = some evs) : evs.length = es.length :=
  (collectEvents_spec sid h).1

/-! ## Claim theorems -/

/-- Claim C1 (counterexample): the Value Codec does NOT return `"??"` for
every invalid byte payload — for a binary-data value whose bytes are not
valid UTF-8 (e.g. the single byte 0xFF), `from_utf8(..).unwrap()` panics
(modelled as `none`), aborting the surrounding query call rather than
yielding the placeholder. -/
theorem val_to_string_invalid_utf8_panics :
    val_to_string (RValue.data [255]) = none ∧
    collectEvents "s" [StreamEntry.mk "1-1" [("k", RValue.data [255])]] = none :=
  ⟨rfl, rfl⟩

/-- Claim C1 (amended): if the binary data is valid UTF-8 (in particular the
UTF-8 encoding of any string `s`), Decode returns the decoded string; when
UTF-8 decoding fails, Decode panics instead of returning `"??"`. -/
theorem val_to_string_valid_utf8 :
    (∀ s : String, val_to_string (RValue.data (utf8Encode s.data)) = some s) ∧
    (∀ bs : List Nat, utf8Decode bs = none → val_to_string (RValue.data bs) = none) := by
  constructor
  · intro s
    simp only [val_to_string, utf8Decode_utf8Encode, Option.map_some']
  · intro bs h
    simp [val_to_string, h]

theorem val_to_string_valid_utf8_witness :
    val_to_string (RValue.data (utf8Encode "hi".data)) = some "hi" ∧
    val_to_string (RValue.data [255]) = none :=
  ⟨val_to_string_valid_utf8.1 "hi", val_to_string_valid_utf8.2 [255] rfl⟩

/-- Claim C10: for every store value that is not a binary-data value, the
Value Codec returns the placeholder `"??"`, regardless of the value's
content — the fallback is keyed on the value's type. -/
theorem non_data_value_yields_placeholder :
    ∀ v : RValue, (∀ bs : List Nat, v ≠ RValue.data bs) → val_to_string v = some "??" := by
  intro v hv
  cases v with
  | data bs => exact absurd rfl (hv bs)
  | nil => rfl
  | int i => rfl
  | bulk l => rfl
  | status s => rfl
  | okay => rfl

theorem non_data_value_yields_placeholder_witness :
    val_to_string (RValue.int 7) = some "??" :=
  non_data_value_yields_placeholder (RValue.int 7) (fun _ h => RValue.noConfusion h)

/-- Claim C3: a caller with no entry in the connection registry gets exactly
the not-configured error from every write and every query — never a
success, never a silent no-op, and never a panic (the query result is a
proper `some`, i.e. no abort). -/
theorem unconfigured_caller_always_not_configured :
    ∀ (σ : Type) (deps : Deps σ) (clients : Registry) (store : σ) (actor : String),
      regGet clients actor = none →
      (∀ event : Event, write_event deps clients store actor event =
        Except.error notConfiguredError) ∧
      (∀ query : StreamQuery, query_stream deps clients store actor query =
        some (Except.error notConfiguredError)) := by
  intro σ deps clients store actor h
  have hcon : actor_con deps clients actor = Except.error notConfiguredError := by
    simp [actor_con, h]
  constructor
  · intro event
    simp [write_event, hcon]
  · intro query
    obtain ⟨sid, r, c⟩ := query
    cases r with
    | none => by_cases hc : c > 0 <;> simp [query_stream, hcon, hc]
    | some tr => by_cases hc : c > 0 <;> simp [query_stream, hcon, hc]

theorem unconfigured_caller_always_not_configured_witness :
    write_event specDeps [] (StoreState.mk [] 0) "a1" (Event.mk "" "s" [("f", "x")]) =
      Except.error notConfiguredError ∧
    query_stream specDeps [] (StoreState.mk [] 0) "a1" (StreamQuery.mk "s" none 0) =
      some (Except.error notConfiguredError) :=
  ⟨(unconfigured_caller_always_not_configured StoreState specDeps []
      (StoreState.mk [] 0) "a1" rfl).1 (Event.mk "" "s" [("f", "x")]),
   (unconfigured_caller_always_not_configured StoreState specDeps []
      (StoreState.mk [] 0) "a1" rfl).2 (StreamQuery.mk "s" none 0)⟩

/-- Claim C6: when opening the client fails, `configure` returns the error
and the registry is unchanged — every caller's prior handle is still
visible exactly as before (the operation is atomic w.r.t. registry
state). -/
theorem register_failure_leaves_registry_unchanged :
    ∀ (openClient : String → Except String Client) (clients : Registry)
      (config : CapabilityConfiguration) (e : String),
      initialize_client openClient config = Except.error e →
      configure openClient clients config = (Except.error (RError.str e), clients) ∧
      ∀ a, regGet (configure openClient clients config).2 a = regGet clients a := by
  intro openC clients config e h
  have hc : configure openC clients config = (Except.error (RError.str e), clients) := by
    simp [configure, h]
  exact ⟨hc, fun a => by rw [hc]⟩

theorem register_failure_leaves_registry_unchanged_witness :
    configure (fun _ => Except.error "boom") [("m", Client.mk "old")]
        (CapabilityConfiguration.mk "m" []) =
      (Except.error (RError.str "Failed to connect to redis: boom"),
        [("m", Client.mk "old")]) :=
  (register_failure_leaves_registry_unchanged (fun _ => Except.error "boom")
    [("m", Client.mk "old")] (CapabilityConfiguration.mk "m" [])
    "Failed to connect to redis: boom" rfl).1

/-- Claim C7: a successful `configure` for a module binds exactly one live
handle to that module id — the new one, replacing any prior handle
wholesale — and leaves every other caller's binding (value and
multiplicity) unchanged; so each caller id has at most one live handle and
subsequent lookups observe only the most recent registration. -/
theorem register_replaces_handle_wholesale :
    ∀ (openClient : String → Except String Client) (clients : Registry)
      (config : CapabilityConfiguration) (c : Client),
      initialize_client openClient config = Except.ok c →
      (configure openClient clients config).1 = Except.ok Resp.empty ∧
      regGet (configure openClient clients config).2 config.module = some c ∧
      regCount (configure openClient clients config).2 config.module = 1 ∧
      (∀ a, ¬ a = config.module →
        regGet (configure openClient clients config).2 a = regGet clients a ∧
        regCount (configure openClient clients config).2 a = regCount clients a) := by
  intro openC clients config c h
  have hc : configure openC clients config =
      (Except.ok Resp.empty, regInsert clients config.module c) := by
    simp [configure, h]
  rw [hc]
  refine ⟨rfl, regGet_insert_self clients config.module c,
    regCount_insert_self clients config.module c, ?_⟩
  intro a ha
  exact ⟨regGet_insert_ne clients config.module a c ha,
    regCount_insert_ne clients config.module a c ha⟩

theorem register_replaces_handle_wholesale_witness :
    regGet (configure (fun url => Except.ok (Client.mk url))
        [("m", Client.mk "old"), ("x", Client.mk "xurl")]
        (CapabilityConfiguration.mk "m" [("URL", "redis://h/")])).2 "m" =
      some (Client.mk "redis://h/") ∧
    regCount (configure (fun url => Except.ok (Client.mk url))
        [("m", Client.mk "old"), ("x", Client.mk "xurl")]
        (CapabilityConfiguration.mk "m" [("URL", "redis://h/")])).2 "m" = 1 ∧
    regGet (configure (fun url => Except.ok (Client.mk url))
        [("m", Client.mk "old"), ("x", Client.mk "xurl")]
        (CapabilityConfiguration.mk "m" [("URL", "redis://h/")])).2 "x" =
      regGet [("m", Client.mk "old"), ("x", Client.mk "xurl")] "x" :=
  ⟨(register_replaces_handle_wholesale (fun url => Except.ok (Client.mk url))
      [("m", Client.mk "old"), ("x", Client.mk "xurl")]
      (CapabilityConfiguration.mk "m" [("URL", "redis://h/")])
      (Client.mk "redis://h/") rfl).2.1,
   (register_replaces_handle_wholesale (fun url => Except.ok (Client.mk url))
      [("m", Client.mk "old"), ("x", Client.mk "xurl")]
      (CapabilityConfiguration.mk "m" [("URL", "redis://h/")])
      (Client.mk "redis://h/") rfl).2.2.1,
   ((register_replaces_handle_wholesale (fun url => Except.ok (Client.mk url))
      [("m", Client.mk "old"), ("x", Client.mk "xurl")]
      (CapabilityConfiguration.mk "m" [("URL", "redis://h/")])
      (Client.mk "redis://h/") rfl).2.2.2 "x" (by decide)).1⟩

/-- Claim C2 (the code): when the payload of a `write_event` or
`query_stream` call fails to decode, `handle_call` does NOT return a
decode error — the `.unwrap()` panics and the call aborts (modelled as
`none`).  This contradicts the specified `DecodeError` contract; the spec
itself flags the panic as a defect of the source. -/
theorem decode_failure_aborts_call :
    ∀ (σ : Type) (deps : Deps σ) (clients : Registry) (store : σ) (actor : String)
      (msg : List Nat),
      (deps.decodeEvent msg = none →
        handle_call deps clients store actor opWriteEvent msg = none) ∧
      (deps.decodeQuery msg = none →
        handle_call deps clients store actor opQueryStream msg = none) := by
  intro σ deps clients store actor msg
  constructor
  · intro h
    have h1 : ¬ (opWriteEvent = opConfigure ∧ actor = "system") :=
      fun hx => absurd hx.1 (by decide)
    simp [handle_call, h1, h]
  · intro h
    have h1 : ¬ (opQueryStream = opConfigure ∧ actor = "system") :=
      fun hx => absurd hx.1 (by decide)
    have h2 : ¬ (opQueryStream = opWriteEvent) := by decide
    simp [handle_call, h1, h2, h]

theorem decode_failure_aborts_call_witness :
    handle_call specDeps [] (StoreState.mk [] 0) "a1" opWriteEvent [255] = none ∧
    handle_call specDeps [] (StoreState.mk [] 0) "a1" opQueryStream [255] = none :=
  ⟨(decode_failure_aborts_call StoreState specDeps [] (StoreState.mk [] 0) "a1" [255]).1 rfl,
   (decode_failure_aborts_call StoreState specDeps [] (StoreState.mk [] 0) "a1" [255]).2 rfl⟩

/-- Claim C5: the assembled results contain exactly one Event per raw store
entry, in the same order; each Event carries the entry's store-assigned id,
the query's stream id, and the entry's field map with every value passed
through the Value Codec (same fields, in the map's order, values decoded by
`val_to_string`). -/
theorem query_assembles_events_in_order :
    ∀ (sid : String) (entries : List StreamEntry) (evs : List Event),
      collectEvents sid entries = some evs →
      evs.length = entries.length ∧
      ∀ i (hi : i < evs.length) (hi' : i < entries.length),
        (evs.get ⟨i, hi⟩).event_id = (entries.get ⟨i, hi'⟩).id ∧
        (evs.get ⟨i, hi⟩).stream = sid ∧
        (evs.get ⟨i, hi⟩).values.length = (entries.get ⟨i, hi'⟩).map.length ∧
        ∀ j (hj : j < (evs.get ⟨i, hi⟩).values.length)
            (hj' : j < (entries.get ⟨i, hi'⟩).map.length),
          ((evs.get ⟨i, hi⟩).values.get ⟨j, hj⟩).1 =
            ((entries.get ⟨i, hi'⟩).map.get ⟨j, hj'⟩).1 ∧
          val_to_string ((entries.get ⟨i, hi'⟩).map.get ⟨j, hj'⟩).2 =
            some ((evs.get ⟨i, hi⟩).values.get ⟨j, hj⟩).2 := by
  intro sid entries evs h
  obtain ⟨hlen, hidx⟩ := collectEvents_spec sid h
  refine ⟨hlen, ?_⟩
  intro i hi hi'
  obtain ⟨hid, hstream, hvals⟩ := hidx i hi hi'
  obtain ⟨hvlen, hvidx⟩ := decodeValues_spec hvals
  exact ⟨hid, hstream, hvlen, hvidx⟩

theorem query_assembles_events_in_order_witness :
    ([Event.mk "1-1" "st" [("k", "v")], Event.mk "2-1" "st" [("n", "??")]] : List Event).length =
      ([StreamEntry.mk "1-1" [("k", RValue.data (utf8Encode "v".data))],
        StreamEntry.mk "2-1" [("n", RValue.nil)]] : List StreamEntry).length :=
  (query_assembles_events_in_order "st"
    [StreamEntry.mk "1-1" [("k", RValue.data (utf8Encode "v".data))],
     StreamEntry.mk "2-1" [("n", RValue.nil)]]
    [Event.mk "1-1" "st" [("k", "v")], Event.mk "2-1" "st" [("n", "??")]] rfl).1

/-- Claim C8: `write_event` flattens the event's value map into exactly its
entry list, appends it to `event.stream` through the store's auto-id
append primitive (`xadd .. "*" ..`), returns a `WriteResponse` carrying
the store-assigned id, and leaves the provider's own registry state
untouched no matter how the dispatch turns out. -/
theorem write_flattens_appends_returns_id :
    (∀ m : List (String × String), map_to_tuples m = m) ∧
    (∀ (σ : Type) (deps : Deps σ) (clients : Registry) (store : σ) (actor : String)
        (event : Event) (client : Client) (conn : Conn σ) (eid : String) (store' : σ),
        regGet clients actor = some client →
        deps.getConnection client = Except.ok conn →
        conn.xadd store event.stream "*" (map_to_tuples event.values) =
          Except.ok (eid, store') →
        write_event deps clients store actor event =
          Except.ok (WriteResponse.mk eid, store')) ∧
    (∀ (σ : Type) (deps : Deps σ) (clients : Registry) (store : σ) (actor : String)
        (msg : List Nat) (out : Except RError Resp × Registry × σ),
        handle_call deps clients store actor opWriteEvent msg = some out →
        out.2.1 = clients) := by
  refine ⟨fun m => rfl, ?_, ?_⟩
  · intro σ deps clients store actor event client conn eid store' hget hconn hadd
    have hcon : actor_con deps clients actor = Except.ok conn := by
      simp [actor_con, hget, hconn]
    simp [write_event, hcon, hadd]
  · intro σ deps clients store actor msg out h
    have h1 : ¬ (opWriteEvent = opConfigure ∧ actor = "system") :=
      fun hx => absurd hx.1 (by decide)
    simp only [handle_call] at h
    rw [if_neg h1] at h
    simp only [if_true] at h
    match hdec : deps.decodeEvent msg with
    | none => rw [hdec] at h; cases h
    | some ev =>
      simp only [hdec] at h
      match hw : write_event deps clients store actor ev with
      | Except.ok (w, s') =>
        simp only [hw] at h
        obtain rfl := Option.some.inj h
        rfl
      | Except.error e =>
        simp only [hw] at h
        obtain rfl := Option.some.inj h
        rfl

theorem write_flattens_appends_returns_id_witness :
    write_event specDeps [("a1", Client.mk "u")] (StoreState.mk [] 0) "a1"
        (Event.mk "" "my-stream" [("f", "x")]) =
      Except.ok (WriteResponse.mk "1",
        StoreState.mk
          [("my-stream", [StreamEntry.mk "1" [("f", RValue.data (utf8Encode "x".data))]])]
          1) ∧
    ((Except.error notConfiguredError : Except RError Resp), ([("a1", Client.mk "u")] : Registry),
        StoreState.mk [] 0).2.1 = ([("a1", Client.mk "u")] : Registry) :=
  ⟨write_flattens_appends_returns_id.2.1 StoreState specDeps [("a1", Client.mk "u")]
      (StoreState.mk [] 0) "a1" (Event.mk "" "my-stream" [("f", "x")])
      (Client.mk "u") specConn "1"
      (StoreState.mk
        [("my-stream", [StreamEntry.mk "1" [("f", RValue.data (utf8Encode "x".data))]])] 1)
      rfl rfl rfl,
   write_flattens_appends_returns_id.2.2 StoreState
      (Deps.mk (fun _ => none) (fun _ => some (Event.mk "" "s" [])) (fun _ => none)
        (fun url => Except.ok (Client.mk url)) (fun _ => Except.ok specConn))
      [("a1", Client.mk "u")] (StoreState.mk [] 0) "other" [255]
      (Except.error notConfiguredError, [("a1", Client.mk "u")], StoreState.mk [] 0) rfl⟩

/-- Claim C9 (counterexample): a non-system caller invoking the configure
operation receives exactly the same generic `"bad dispatch"` error value
as a caller invoking an unknown operation — the code has no distinct
Unauthorized and UnsupportedOperation errors. -/
theorem non_system_configure_same_error_as_unknown_op :
    handle_call specDeps [] (StoreState.mk [] 0) "a1" opConfigure [] =
      some (Except.error (RError.str "bad dispatch"), [], StoreState.mk [] 0) ∧
    handle_call specDeps [] (StoreState.mk [] 0) "a1" "no-such-op" [] =
      some (Except.error (RError.str "bad dispatch"), [], StoreState.mk [] 0) :=
  ⟨rfl, rfl⟩

/-- Claim C9 (amended): a non-system caller's configure call is rejected
(the configuration is not applied, the registry and store are unchanged)
and any unknown operation is rejected likewise — but both failures carry
the one generic `"bad dispatch"` error, not distinct
Unauthorized/UnsupportedOperation errors. -/
theorem non_system_configure_rejected :
    ∀ (σ : Type) (deps : Deps σ) (clients : Registry) (store : σ) (actor : String)
      (msg : List Nat),
      (¬ actor = "system" →
        handle_call deps clients store actor opConfigure msg =
          some (Except.error (RError.str "bad dispatch"), clients, store)) ∧
      (∀ op : String, ¬ op = opConfigure → ¬ op = opWriteEvent → ¬ op = opQueryStream →
        handle_call deps clients store actor op msg =
          some (Except.error (RError.str "bad dispatch"), clients, store)) := by
  intro σ deps clients store actor msg
  constructor
  · intro h
    have h2 : ¬ (opConfigure = opWriteEvent) := by decide
    have h3 : ¬ (opConfigure = opQueryStream) := by decide
    simp [handle_call, h, h2, h3]
  · intro op h1 h2 h3
    have h1' : ¬ (op = opConfigure ∧ actor = "system") := fun hx => h1 hx.1
    simp [handle_call, h1', h2, h3]

theorem non_system_configure_rejected_witness :
    handle_call specDeps [] (StoreState.mk [] 0) "bob" opConfigure [] =
      some (Except.error (RError.str "bad dispatch"), [], StoreState.mk [] 0) ∧
    handle_call specDeps [] (StoreState.mk [] 0) "bob" "frobnicate" [] =
      some (Except.error (RError.str "bad dispatch"), [], StoreState.mk [] 0) :=
  ⟨(non_system_configure_rejected StoreState specDeps [] (StoreState.mk [] 0) "bob" []).1
      (by decide),
   (non_system_configure_rejected StoreState specDeps [] (StoreState.mk [] 0) "bob" []).2
      "frobnicate" (by decide) (by decide) (by decide)⟩

/-- Claim C4: the Query engine selects exactly one of four store range-read
variants by branching on (range present?, count > 0?): counted range-read
over `[min_time, max_time]`, uncounted range-read over the range, counted
range-read over the full stream (`"-"` to `"+"`), or uncounted full-stream
range-read.  Any count ≤ 0 (zero or negative) is the "unlimited" sentinel —
two such counts produce identical behaviour — and a positive count `N`
yields a result list of length at most `N`. -/
theorem query_selects_one_of_four_variants :
    (∀ (σ : Type) (deps : Deps σ) (clients : Registry) (store : σ) (actor sid : String)
        (r : Option TimeRange) (c c' : Int), c ≤ 0 → c' ≤ 0 →
        query_stream deps clients store actor (StreamQuery.mk sid r c) =
          query_stream deps clients store actor (StreamQuery.mk sid r c')) ∧
    (∀ (σ : Type) (deps : Deps σ) (clients : Registry) (store : σ) (actor sid : String)
        (client : Client) (conn : Conn σ) (tr : TimeRange) (c : Int),
        regGet clients actor = some client →
        deps.getConnection client = Except.ok conn →
        (c > 0 →
          query_stream deps clients store actor (StreamQuery.mk sid (some tr) c) =
            finishQuery sid (conn.xrangeCount store sid tr.min_time tr.max_time c)) ∧
        (c ≤ 0 →
          query_stream deps clients store actor (StreamQuery.mk sid (some tr) c) =
            finishQuery sid (conn.xrange store sid tr.min_time tr.max_time)) ∧
        (c > 0 →
          query_stream deps clients store actor (StreamQuery.mk sid none c) =
            finishQuery sid (conn.xrangeCount store sid "-" "+" c)) ∧
        (c ≤ 0 →
          query_stream deps clients store actor (StreamQuery.mk sid none c) =
            finishQuery sid (conn.xrange store sid "-" "+"))) ∧
    (∀ (clients : Registry) (store : StoreState) (actor sid : String)
        (r : Option TimeRange) (c : Int) (res : StreamResults) (store' : StoreState),
        c > 0 →
        query_stream specDeps clients store actor (StreamQuery.mk sid r c) =
          some (Except.ok (res, store')) →
        res.events.length ≤ c.toNat) := by
  refine ⟨?_, ?_, ?_⟩
  · intro σ deps clients store actor sid r c c' hc hc'
    have h1 : ¬ c > 0 := by omega
    have h2 : ¬ c' > 0 := by omega
    cases r with
    | none => simp [query_stream, h1, h2]
    | some tr => simp [query_stream, h1, h2]
  · intro σ deps clients store actor sid client conn tr c hget hconn
    have hcon : actor_con deps clients actor = Except.ok conn := by
      simp [actor_con, hget, hconn]
    refine ⟨?_, ?_, ?_, ?_⟩
    · intro hc
      simp [query_stream, hcon, hc]
    · intro hc
      have h1 : ¬ c > 0 := by omega
      simp [query_stream, hcon, h1]
    · intro hc
      simp [query_stream, hcon, hc]
    · intro hc
      have h1 : ¬ c > 0 := by omega
      simp [query_stream, hcon, h1]
  · intro clients store actor sid r c res store' hc h
    match hget : regGet clients actor with
    | none =>
      have hcon : actor_con specDeps clients actor = Except.error notConfiguredError := by
        simp [actor_con, hget]
      cases r with
      | none => simp [query_stream, hcon, hc] at h
      | some tr => simp [query_stream, hcon, hc] at h
    | some client =>
      have hcon : actor_con specDeps clients actor = Except.ok specConn := by
        simp [actor_con, hget, specDeps]
      have hc' : (0 : Int) < c := hc
      cases r with
      | some tr =>
        simp only [query_stream, hcon] at h
        rw [if_pos hc'] at h
        simp only [specConn, finishQuery] at h
        match hcoll : collectEvents sid
            ((specXRange store sid tr.min_time tr.max_time).ids.take c.toNat) with
        | none => simp [hcoll] at h
        | some evs =>
          simp only [hcoll, Option.some.injEq, Except.ok.injEq, Prod.mk.injEq] at h
          obtain ⟨hres, _⟩ := h
          rw [← hres]
          have hlen := collectEvents_length hcoll
          rw [List.length_take] at hlen
          show evs.length ≤ c.toNat
          omega
      | none =>
        simp only [query_stream, hcon] at h
        rw [if_pos hc'] at h
        simp only [specConn, finishQuery] at h
        match hcoll : collectEvents sid ((specXRange store sid "-" "+").ids.take c.toNat) with
        | none => simp [hcoll] at h
        | some evs =>
          simp only [hcoll, Option.some.injEq, Except.ok.injEq, Prod.mk.injEq] at h
          obtain ⟨hres, _⟩ := h
          rw [← hres]
          have hlen := collectEvents_length hcoll
          rw [List.length_take] at hlen
          show evs.length ≤ c.toNat
          omega

theorem query_selects_one_of_four_variants_witness :
    query_stream specDeps [] (StoreState.mk [] 0) "a1" (StreamQuery.mk "s" none 0) =
      query_stream specDeps [] (StoreState.mk [] 0) "a1" (StreamQuery.mk "s" none (-3)) ∧
    query_stream specDeps [("a1", Client.mk "u")]
        (StoreState.mk [("s", [StreamEntry.mk "1" [], StreamEntry.mk "2" []])] 2) "a1"
        (StreamQuery.mk "s" none 1) =
      finishQuery "s" (specConn.xrangeCount
        (StoreState.mk [("s", [StreamEntry.mk "1" [], StreamEntry.mk "2" []])] 2)
        "s" "-" "+" 1) ∧
    ([Event.mk "1" "s" []] : List Event).length ≤ (1 : Int).toNat :=
  ⟨query_selects_one_of_four_variants.1 StoreState specDeps [] (StoreState.mk [] 0)
      "a1" "s" none 0 (-3) (by decide) (by decide),
   (query_selects_one_of_four_variants.2.1 StoreState specDeps [("a1", Client.mk "u")]
      (StoreState.mk [("s", [StreamEntry.mk "1" [], StreamEntry.mk "2" []])] 2)
      "a1" "s" (Client.mk "u") specConn (TimeRange.mk "x" "y") 1 rfl rfl).2.2.1
      (by decide),
   query_selects_one_of_four_variants.2.2 [("a1", Client.mk "u")]
      (StoreState.mk [("s", [StreamEntry.mk "1" [], StreamEntry.mk "2" []])] 2)
      "a1" "s" none 1 (StreamResults.mk [Event.mk "1" "s" []])
      (StoreState.mk [("s", [StreamEntry.mk "1" [], StreamEntry.mk "2" []])] 2)
      (by decide) rfl⟩
